import Mathlib

/-!
Shallow embedding of the article-generation core of the `aitest` repository
(`src/server.js`), together with theorems settling the frozen claims about
its specification.

Strings are modelled as Lean `String`s (lists of characters); JavaScript
string indices are UTF-16 code units, which for the purposes of these
claims we identify with characters.  Dynamically-typed JavaScript values
that flow into the text helpers are modelled by the `JsValue` type below,
with the standard `String()` / `Array.prototype.join` coercions.
-/

/-- Model of a JavaScript value as it can appear in a request body or a
transcript segment: a string, a (numeric) number, a boolean, `null`,
`undefined`, or a plain object. -/
inductive JsValue where
  | vstr (s : String)
  | vnum (n : Int)
  | vbool (b : Bool)
  | vnull
  | vundef
  | vobj
deriving DecidableEq, Repr

/-- JavaScript truthiness test (`!value`): `""`, `0`, `false`, `null` and
`undefined` are falsy; every other modelled value is truthy. -/
def JsValue.isFalsy : JsValue → Bool
  | .vstr s => s = ""
  | .vnum n => n = 0
  | .vbool b => !b
  | .vnull => true
  | .vundef => true
  | .vobj => false

/-- The `String()` coercion applied to a modelled value. -/
def JsValue.toStr : JsValue → String
  | .vstr s => s
  | .vnum n => toString n
  | .vbool b => if b then "true" else "false"
  | .vnull => "null"
  | .vundef => "undefined"
  | .vobj => "[object Object]"

/-- The coercion `Array.prototype.join` applies to each element: like
`String()` except that `null` and `undefined` become the empty string. -/
def JsValue.joinStr : JsValue → String
  | .vnull => ""
  | .vundef => ""
  | v => v.toStr

/-- A transcript segment.  The source also carries timing fields
(`offset`, `duration`) that the core never reads, so only `text` is
modelled; `text` is kept as a `JsValue` so that degenerate segments with a
missing / `null` text field are representable. -/
structure Segment where
  text : JsValue
deriving DecidableEq, Repr

/-- ASCII fragment of the JavaScript `\s` character class (space and the
usual control whitespace); the inputs of interest contain no exotic
Unicode whitespace. -/
def isJsWs (c : Char) : Bool :=
  c = ' ' || c = '\t' || c = '\n' || c = '\r' || c = '\x0b' || c = '\x0c'

/-- `replace(/\s+/g, " ")` on a character list: every maximal run of
whitespace is replaced by a single space.  The boolean flag records
whether the previous character was whitespace (i.e. whether we are inside
a run whose space has already been emitted). -/
def collapseWsAux : Bool → List Char → List Char
  | _, [] => []
  | prevWs, c :: rest =>
    if isJsWs c then
      if prevWs then collapseWsAux true rest
      else ' ' :: collapseWsAux true rest
    else c :: collapseWsAux false rest

def collapseWs (l : List Char) : List Char := collapseWsAux false l

/-- `String.prototype.trim()` on a character list. -/
def trimChars (l : List Char) : List Char :=
  ((l.dropWhile isJsWs).reverse.dropWhile isJsWs).reverse

/-- `.replace(/\s+/g, " ").trim()`, the cleaning step used throughout the
source. -/
def jsClean (s : String) : String :=
  String.mk (trimChars (collapseWs s.data))

/-- `s.slice(0, n)` (character-level model of UTF-16 slicing). -/
def strTake (s : String) (n : Nat) : String :=
  String.mk (s.data.take n)

/-- `Array.prototype.join(sep)` over a list of strings. -/
def joinSep (sep : String) : List String → String
  | [] => ""
  | [x] => x
  | x :: y :: xs => x ++ sep ++ joinSep sep (y :: xs)

/-- `src/server.js` line 12. -/
def MAX_TRANSCRIPT_CHARS : Nat := 12000
/-- `src/server.js` line 13. -/
def STYLE_LIMIT : Nat := 240
/-- `src/server.js` line 14. -/
def DETAIL_LIMIT : Nat := 500

/-- `normalizeTranscript` (`src/server.js` lines 126-132):
`segments.map(s => s.text).join(" ").replace(/\s+/g, " ").trim()`. -/
def normalizeTranscript (segments : List Segment) : String :=
  jsClean (joinSep " " (segments.map (fun segment => segment.text.joinStr)))

/-- The truncation step of the `/api/generate` handler
(`src/server.js` lines 53-57): returns the transcript actually used
together with the `truncated` flag. -/
def transcriptPipeline (segments : List Segment) : String × Bool :=
  let transcriptText := normalizeTranscript segments
  let truncated : Bool := transcriptText.length > MAX_TRANSCRIPT_CHARS
  (if truncated then strTake transcriptText MAX_TRANSCRIPT_CHARS ++ " ..." else transcriptText,
   truncated)

/-- Total length of the raw segment texts (as the texts would be joined),
used to state the spec's "input segment text total length". -/
def totalSegmentTextLength (segments : List Segment) : Nat :=
  (segments.map (fun segment => segment.text.joinStr.length)).sum

/-- `clampText` (`src/server.js` lines 134-140): falsy values give `""`;
otherwise the value is coerced with `String()`, whitespace-normalized,
trimmed and cut to `maxLength`. -/
def clampText (value : JsValue) (maxLength : Nat) : String :=
  if value.isFalsy then ""
  else strTake (jsClean value.toStr) maxLength

/-- `buildStyleDescriptor` (`src/server.js` lines 142-159).  The
conditional `parts.push` calls are modelled by concatenating the
corresponding singleton or empty lists. -/
def buildStyleDescriptor (stylePreset styleDetail language : JsValue) : String :=
  let safePreset := clampText stylePreset STYLE_LIMIT
  let safeDetail := clampText styleDetail DETAIL_LIMIT
  let safeLanguage := clampText language 40
  let parts : List String :=
    (if safePreset ≠ "" then [safePreset] else []) ++
    (if safeDetail ≠ "" then [safeDetail] else []) ++
    (if safeLanguage ≠ "" ∧ safeLanguage ≠ "auto"
      then ["Output language: " ++ safeLanguage] else [])
  joinSep " | " parts

/-- `lengthSpecFromChoice` (`src/server.js` lines 161-170). -/
def lengthSpecFromChoice (choice : JsValue) : String :=
  let normalized := (if choice.isFalsy then "" else choice.toStr).toLower
  if normalized = "short" then "300-450 words"
  else if normalized = "medium" then "600-900 words"
  else if normalized = "long" then "1000-1400 words"
  else "600-900 words"

/-- The predicate of the `find` call in `buildTitle`
(`src/server.js` line 295): `segment.text && segment.text.length > 5`.
Only strings have a `length` property; for any other value the comparison
`undefined > 5` is false. -/
def titleQualifies (segment : Segment) : Bool :=
  match segment.text with
  | .vstr s => s.length > 5
  | _ => false

/-- `buildTitle` (`src/server.js` lines 293-304).  The found segment's
text is necessarily a string (the predicate fails on every other value),
and a found text is non-empty (length > 5), so the `|| "Podcast Summary"`
default only fires when no segment qualifies. -/
def buildTitle (segments : List Segment) : String :=
  let seed : String :=
    match segments.find? titleQualifies with
    | some segment =>
      match segment.text with
      | .vstr s => s
      | _ => "Podcast Summary"
    | none => "Podcast Summary"
  let cleaned := jsClean seed
  if cleaned = "" then "Podcast Summary"
  else if cleaned.length > 70 then (strTake cleaned 70).trim ++ "..."
  else cleaned

/-- `segmentsToText` (`src/server.js` lines 306-312); textually the same
body as `normalizeTranscript`. -/
def segmentsToText (segments : List Segment) : String :=
  jsClean (joinSep " " (segments.map (fun segment => segment.text.joinStr)))

/-- The `for` loop of `samplePoints` (`src/server.js` lines 322-327),
with explicit fuel (`fuel = segments.length` is enough because the stride
is at least 1); the loop-local `chunk` binding is inlined. -/
def samplePointsAux (segments : List Segment) (count step : Nat) :
    Nat → Nat → List String → List String
  | 0, _, points => points
  | fuel + 1, i, points =>
    if i < segments.length ∧ points.length < count then
      samplePointsAux segments count step fuel (i + step)
        (if segmentsToText ((segments.drop i).take 3) ≠ ""
         then points ++ [segmentsToText ((segments.drop i).take 3)] else points)
    else points

/-- `samplePoints` (`src/server.js` lines 314-330). -/
def samplePoints (segments : List Segment) (count : Nat) : List String :=
  if segments.length = 0 then []
  else
    let step := max 1 (segments.length / count)
    samplePointsAux segments count step segments.length 0 []

/-- The fixed sentence used for an empty Closing section
(`src/server.js` line 286). -/
def defaultClosing : String :=
  "The discussion concludes with a wrap-up of key takeaways."

/-- `ruleBasedArticle` (`src/server.js` lines 256-291).  `styleDescriptor`
and `lengthSpec` are computed by the dispatcher and passed in. -/
def ruleBasedArticle (segments : List Segment)
    (styleDescriptor lengthSpec : String) (truncated : Bool) : String :=
  let title := buildTitle segments
  let intro := segmentsToText (segments.take 6)
  let closing := segmentsToText (segments.drop (segments.length - 6))
  let points := samplePoints segments 5
  let styleLine :=
    if styleDescriptor ≠ "" then "Style focus: " ++ styleDescriptor ++ "."
    else "Style focus: neutral summary."
  let scopeLine :=
    if truncated then "Note: transcript truncated to fit context."
    else "Note: transcript fully included for this summary."
  joinSep "\n"
    [ "# " ++ title,
      "",
      "## Overview",
      styleLine ++ " " ++ intro,
      "",
      "Target length: " ++ lengthSpec ++ ".",
      "",
      "## Key Points",
      joinSep "\n" (points.map (fun point => "- " ++ point)),
      "",
      "## Closing",
      (if closing ≠ "" then closing else defaultClosing),
      "",
      "## Source Notes",
      scopeLine ++ " This article is generated from the transcript and may omit details." ]

/-- A Generation Request (`src/server.js` lines 172-180): the fields the
dispatcher receives from the HTTP handler. -/
structure GenRequest where
  transcript : String
  segments : List Segment
  stylePreset : JsValue
  styleDetail : JsValue
  length : JsValue
  language : JsValue
  truncated : Bool

/-- Outcome of the single external-model call made by
`generateWithOpenAI`: either the call throws (network or API failure) or
it yields the raw `output_text` of the response (possibly empty or
whitespace). -/
inductive ExternalOutcome where
  | failure
  | success (rawText : String)
deriving DecidableEq, Repr

/-- `generateWithOpenAI`'s post-processing of a successful response
(`src/server.js` line 253): `(response.output_text || "").trim()`. -/
def externalText : ExternalOutcome → Option String
  | .failure => none
  | .success rawText => some rawText.trim

/-- The external-mode string `"openai"` (`src/server.js` line 197); this
is the wire value of the spec's abstract `external` mode
(`src/public/app.js` lines 94-97 displays it as the OpenAI path). -/
def EXTERNAL_MODE : String := "openai"
/-- The fallback-mode string (`src/server.js` line 211). -/
def FALLBACK_MODE : String := "fallback"

/-- `generateArticle` (`src/server.js` lines 172-213).  `hasApiKey`
models the presence of `process.env.OPENAI_API_KEY`, and `outcome` the
result of the (at most one) external call; the `try`/`catch` around that
call maps `ExternalOutcome.failure` to the fallback path. -/
def generateArticle (hasApiKey : Bool) (outcome : ExternalOutcome)
    (req : GenRequest) : String × String :=
  let styleDescriptor := buildStyleDescriptor req.stylePreset req.styleDetail req.language
  let lengthSpec := lengthSpecFromChoice req.length
  let fallbackResult :=
    (ruleBasedArticle req.segments styleDescriptor lengthSpec req.truncated, FALLBACK_MODE)
  if hasApiKey then
    match externalText outcome with
    | some text => if text ≠ "" then (text, EXTERNAL_MODE) else fallbackResult
    | none => fallbackResult
  else fallbackResult

/-! ### Video ID extraction (`extractVideoId`, `src/server.js` lines 91-124)

The structured strategy uses the WHATWG `URL` constructor; we model its
behaviour on absolute `http(s)` URLs (hostname lowercased and cut at the
port, pathname defaulting to `/`, query between `?` and `#`,
`searchParams` splitting on `&` and the first `=`).  Inputs that the
constructor rejects — in particular anything without a scheme — are
modelled as `none`, which the source's `catch` turns into "try the
fallback pattern". -/

/-- The characters of the id character class `[a-zA-Z0-9_-]`. -/
def idChar (c : Char) : Bool :=
  c.isAlpha || c.isDigit || c = '_' || c = '-'

/-- Result of the `URL` constructor projections used by the source. -/
structure ParsedUrl where
  hostname : List Char
  pathname : List Char
  query : List Char
deriving DecidableEq, Repr

/-- Strip a leading `http://` / `https://` scheme; other inputs are
treated as parse failures. -/
def splitScheme (l : List Char) : Option (List Char) :=
  if List.isPrefixOf "https://".data l then some (l.drop 8)
  else if List.isPrefixOf "http://".data l then some (l.drop 7)
  else none

def notHostEnd (c : Char) : Bool := !(c = '/' || c = '?' || c = '#')
def notPathEnd (c : Char) : Bool := !(c = '?' || c = '#')

/-- The query part (chars after `?`, up to `#`) of what follows the
pathname. -/
def queryOf : List Char → List Char
  | '?' :: qrest => qrest.takeWhile (fun c => !(c = '#'))
  | _ => []

/-- The `hostname` projection: the authority (up to `/`, `?` or `#`),
cut at the port separator and lowercased. -/
def hostnameOf (rest : List Char) : List Char :=
  ((rest.takeWhile notHostEnd).takeWhile (fun c => !(c = ':'))).map Char.toLower

/-- The `pathname` projection from what follows the authority; an absent
path is normalized to `/` as the URL standard does for special schemes. -/
def pathOf : List Char → List Char
  | '/' :: prest => ('/' :: prest).takeWhile notPathEnd
  | _ => ['/']

/-- Model of `new URL` restricted to the projections the source reads. -/
def parseUrl (l : List Char) : Option ParsedUrl :=
  match splitScheme l with
  | none => none
  | some rest =>
    some ⟨hostnameOf rest, pathOf (rest.dropWhile notHostEnd),
      queryOf ((rest.dropWhile notHostEnd).dropWhile notPathEnd)⟩

/-- Split a character list on a separator character (`String.prototype.split`
with a single-character separator). -/
def splitOnChar (sep : Char) : List Char → List (List Char)
  | [] => [[]]
  | c :: rest =>
    if c = sep then [] :: splitOnChar sep rest
    else
      match splitOnChar sep rest with
      | [] => [[c]]
      | piece :: pieces => (c :: piece) :: pieces

/-- One `name=value` pair of a query string; empty pieces are ignored by
`URLSearchParams`. -/
def parsePair (piece : List Char) : Option (List Char × List Char) :=
  if piece = [] then none
  else some (piece.takeWhile (fun c => !(c = '=')), (piece.dropWhile (fun c => !(c = '='))).drop 1)

/-- `URLSearchParams.get`: the value of the first pair with the given
name (percent-decoding is not modelled; the claims' inputs use none). -/
def getParam (name : List Char) : List (List Char × List Char) → Option (List Char)
  | [] => none
  | (n, v) :: rest => if n = name then some v else getParam name rest

def searchParamsOf (query : List Char) : List (List Char × List Char) :=
  (splitOnChar '&' query).filterMap parsePair

/-- `hostname.replace("www.", "")`: JavaScript `String.prototype.replace`
with a string pattern replaces only the first occurrence. -/
def replaceFirstWWW : List Char → List Char
  | [] => []
  | c :: rest =>
    if List.isPrefixOf "www.".data (c :: rest) then rest.drop 3
    else c :: replaceFirstWWW rest

/-- One positional attempt of the path regex
`/\/(shorts|live|embed)\/([^/?]+)/`: at a given position at most one
alternative can match (the three differ in their second letter). -/
def pathAttempt (here : List Char) : Option (List Char) :=
  if List.isPrefixOf "/shorts/".data here then some (here.drop 8)
  else if List.isPrefixOf "/live/".data here then some (here.drop 6)
  else if List.isPrefixOf "/embed/".data here then some (here.drop 7)
  else none

/-- The path regex scanning for its leftmost match; the second group is
the maximal non-empty run of characters other than `/` and `?`. -/
def pathScan : List Char → Option (List Char)
  | [] => none
  | c :: rest =>
    match pathAttempt (c :: rest) with
    | some after =>
      if after.takeWhile (fun d => !(d = '/' || d = '?')) ≠ []
      then some (after.takeWhile (fun d => !(d = '/' || d = '?')))
      else pathScan rest
    | none => pathScan rest

/-- One positional attempt of the fallback regex
`/(?:v=|youtu\.be\/|\/shorts\/|\/live\/|\/embed\/)([a-zA-Z0-9_-]{6,})/`:
at a given position at most one of the five prefix alternatives can
match (they differ in their first or second character). -/
def fallbackAttempt (here : List Char) : Option (List Char) :=
  if List.isPrefixOf "v=".data here then some (here.drop 2)
  else if List.isPrefixOf "youtu.be/".data here then some (here.drop 9)
  else if List.isPrefixOf "/shorts/".data here then some (here.drop 8)
  else if List.isPrefixOf "/live/".data here then some (here.drop 6)
  else if List.isPrefixOf "/embed/".data here then some (here.drop 7)
  else none

/-- The fallback regex scanning for its leftmost match: the group is the
maximal run of id characters after the matched prefix, provided it has at
least 6 characters. -/
def fallbackScan : List Char → Option (List Char)
  | [] => none
  | c :: rest =>
    match fallbackAttempt (c :: rest) with
    | some after =>
      if (after.takeWhile idChar).length ≥ 6 then some (after.takeWhile idChar)
      else fallbackScan rest
    | none => fallbackScan rest

/-- The structured (URL-constructor) strategy of `extractVideoId`
(`src/server.js` lines 94-117): `none` exactly when control falls through
to the fallback pattern (parse failure, a non-YouTube host, or a
`youtube.com` URL with no usable `v` parameter and no matching path). -/
def structuredResult (trimmed : List Char) : Option (List Char) :=
  match parseUrl trimmed with
  | none => none
  | some parsed =>
    if replaceFirstWWW parsed.hostname = "youtu.be".data then
      some (parsed.pathname.filter (fun c => !(c = '/')))
    else if List.isSuffixOf "youtube.com".data (replaceFirstWWW parsed.hostname) then
      match getParam "v".data (searchParamsOf parsed.query) with
      | some idFromQuery =>
        if idFromQuery ≠ [] then some idFromQuery else pathScan parsed.pathname
      | none => pathScan parsed.pathname
    else none

/-- `extractVideoId` (`src/server.js` lines 91-124) on character lists. -/
def extractCore (input : List Char) : Option (List Char) :=
  match structuredResult (trimChars input) with
  | some r => some r
  | none => fallbackScan (trimChars input)

/-- The fallback regex attempted at a single position `i` of `l`: the
match the scan would report there, if any. -/
def fallbackMatchAt (l : List Char) (i : Nat) : Option (List Char) :=
  match fallbackAttempt (l.drop i) with
  | some after =>
    if (after.takeWhile idChar).length ≥ 6 then some (after.takeWhile idChar) else none
  | none => none

/-- `extractVideoId` on strings; `none` models the `null` return. -/
def extractVideoId (input : String) : Option String :=
  (extractCore input.data).map String.mk

/-- The index sequence `0, step, 2*step, ...` restricted to indices below
`n`, with fuel (`fuel = n` suffices when `step ≥ 1`): the positions the
`samplePoints` loop visits. -/
def strideIndicesAux (n step : Nat) : Nat → Nat → List Nat
  | 0, _ => []
  | fuel + 1, i => if i < n then i :: strideIndicesAux n step fuel (i + step) else []

def strideIndices (n step : Nat) : List Nat := strideIndicesAux n step n 0

/-- Replace a missing (`null` / `undefined`) text by the empty string,
the value `Array.prototype.join` effectively gives it. -/
def JsValue.orEmptyText : JsValue → JsValue
  | .vnull => .vstr ""
  | .vundef => .vstr ""
  | v => v

def Segment.orEmptyText (s : Segment) : Segment := ⟨s.text.orEmptyText⟩

/-! ### Helper lemmas -/

theorem strLength_mk (l : List Char) : (String.mk l).length = l.length := rfl

theorem takeWhile_all {p : Char → Bool} :
    ∀ l : List Char, (∀ c ∈ l, p c = true) → l.takeWhile p = l
  | [], _ => rfl
  | c :: rest, h => by
    rw [List.takeWhile_cons_of_pos (h c (List.mem_cons_self c rest)),
      takeWhile_all rest (fun d hd => h d (List.mem_cons_of_mem c hd))]

theorem dropWhile_all {p : Char → Bool} :
    ∀ l : List Char, (∀ c ∈ l, p c = true) → l.dropWhile p = []
  | [], _ => rfl
  | c :: rest, h => by
    rw [List.dropWhile_cons_of_pos (h c (List.mem_cons_self c rest))]
    exact dropWhile_all rest (fun d hd => h d (List.mem_cons_of_mem c hd))

theorem dropWhile_none {p : Char → Bool} :
    ∀ l : List Char, (∀ c ∈ l, p c = false) → l.dropWhile p = l
  | [], _ => rfl
  | c :: rest, h => by
    rw [List.dropWhile_cons_of_neg]
    simp [h c (List.mem_cons_self c rest)]

/-- Unfolding of `transcriptPipeline` (cheap on symbolic arguments). -/
theorem transcriptPipeline_eq (segments : List Segment) :
    transcriptPipeline segments =
      (if (normalizeTranscript segments).length > MAX_TRANSCRIPT_CHARS
       then strTake (normalizeTranscript segments) MAX_TRANSCRIPT_CHARS ++ " ..."
       else normalizeTranscript segments,
       decide ((normalizeTranscript segments).length > MAX_TRANSCRIPT_CHARS)) := by
  by_cases h : (normalizeTranscript segments).length > MAX_TRANSCRIPT_CHARS <;>
    simp [transcriptPipeline, h]

/-- C1 (amended; see `transcript_truncation_counterexample`): the
truncation decision is keyed on the length of the *normalized* transcript
text, not on the raw total segment text length.  For every segment list,
the transcript returned by the pipeline is the normalized text when that
text has at most 12000 characters (with `truncated = false`), and its
first 12000 characters followed by the ellipsis marker `" ..."` otherwise
(with `truncated = true`); consequently the returned transcript's length
is `min (normalized length) 12000`, plus the marker length exactly in the
truncated case. -/
theorem transcript_truncation_behavior (segments : List Segment) :
    transcriptPipeline segments =
      ((if (normalizeTranscript segments).length > MAX_TRANSCRIPT_CHARS
        then strTake (normalizeTranscript segments) MAX_TRANSCRIPT_CHARS ++ " ..."
        else normalizeTranscript segments),
       decide ((normalizeTranscript segments).length > MAX_TRANSCRIPT_CHARS)) ∧
    (transcriptPipeline segments).1.length =
      min (normalizeTranscript segments).length MAX_TRANSCRIPT_CHARS +
        (if (normalizeTranscript segments).length > MAX_TRANSCRIPT_CHARS
         then (" ..." : String).length else 0) := by
  by_cases h : (normalizeTranscript segments).length > MAX_TRANSCRIPT_CHARS
  · refine ⟨by simp [transcriptPipeline, h], ?_⟩
    simp only [transcriptPipeline, h, if_true, decide_eq_true_eq]
    have htake : (strTake (normalizeTranscript segments) MAX_TRANSCRIPT_CHARS).length
        = MAX_TRANSCRIPT_CHARS := by
      rw [strTake, strLength_mk, List.length_take]
      exact Nat.min_eq_left (Nat.le_of_lt h)
    rw [String.length_append, htake, min_eq_right (Nat.le_of_lt h)]
  · refine ⟨by simp [transcriptPipeline, h], ?_⟩
    simp only [transcriptPipeline, h, if_false, decide_eq_true_eq]
    rw [min_eq_left (Nat.le_of_not_lt h), Nat.add_zero]

/-- C1 counterexample: a single segment whose text is 12001 space
characters has total raw segment text length 12001 > 12000, yet the
pipeline returns `truncated = false` and the empty (normalized)
transcript — not a 12000-character prefix with an ellipsis marker and
`truncated = true` as the claim, read over the raw total length,
requires. -/
theorem transcript_truncation_counterexample :
    totalSegmentTextLength [⟨.vstr (String.mk (List.replicate 12001 ' '))⟩]
        > MAX_TRANSCRIPT_CHARS ∧
    (transcriptPipeline [⟨.vstr (String.mk (List.replicate 12001 ' '))⟩]).2 = false ∧
    (transcriptPipeline [⟨.vstr (String.mk (List.replicate 12001 ' '))⟩]).1 = "" := by
  have hcollapse : ∀ n, collapseWsAux true (List.replicate n ' ') = [] := by
    intro n
    induction n with
    | zero => rfl
    | succ k ih => simpa [List.replicate_succ, collapseWsAux, isJsWs] using ih
  have hnorm : normalizeTranscript [⟨.vstr (String.mk (List.replicate 12001 ' '))⟩] = "" := by
    have h0 : normalizeTranscript [⟨.vstr (String.mk (List.replicate 12001 ' '))⟩]
        = String.mk (trimChars (collapseWsAux false (' ' :: List.replicate 12000 ' '))) := rfl
    have h1 : collapseWsAux false (' ' :: List.replicate 12000 ' ')
        = ' ' :: collapseWsAux true (List.replicate 12000 ' ') := rfl
    rw [h0, h1, hcollapse 12000]
    rfl
  refine ⟨?_, ?_, ?_⟩
  · have h2 : totalSegmentTextLength [⟨.vstr (String.mk (List.replicate 12001 ' '))⟩]
        = 12001 := by
      simp only [totalSegmentTextLength, List.map_cons, List.map_nil, List.sum_cons,
        List.sum_nil, JsValue.joinStr, JsValue.toStr, strLength_mk, List.length_replicate,
        Nat.add_zero]
    rw [h2]
    norm_num [MAX_TRANSCRIPT_CHARS]
  · rw [transcriptPipeline_eq, hnorm]
    decide
  · rw [transcriptPipeline_eq, hnorm]
    decide

theorem clampText_length_le (value : JsValue) (maxLength : Nat) :
    (clampText value maxLength).length ≤ maxLength := by
  rw [clampText]
  split
  · simp
  · rw [strTake, strLength_mk, List.length_take]
    exact Nat.min_le_left _ _

/-- C7: each style field is independently whitespace-normalized and then
clamped to its cap (240 / 500 / 40 characters, so no field appears in the
output beyond its cap), and the descriptor is the non-empty clamped parts
joined with the fixed delimiter `" | "`, the language clause being
omitted exactly when the clamped language is empty or the sentinel
`"auto"`.  The builder is a total function, so oversized or non-string
inputs cannot make it throw. -/
theorem style_descriptor_clamped (stylePreset styleDetail language : JsValue) :
    (clampText stylePreset STYLE_LIMIT).length ≤ 240 ∧
    (clampText styleDetail DETAIL_LIMIT).length ≤ 500 ∧
    (clampText language 40).length ≤ 40 ∧
    buildStyleDescriptor stylePreset styleDetail language =
      joinSep " | "
        (([clampText stylePreset STYLE_LIMIT,
           clampText styleDetail DETAIL_LIMIT].filter (fun part => part ≠ "")) ++
         (if clampText language 40 ≠ "" ∧ clampText language 40 ≠ "auto"
          then ["Output language: " ++ clampText language 40] else [])) := by
  refine ⟨clampText_length_le _ _, clampText_length_le _ _, clampText_length_le _ _, ?_⟩
  rw [buildStyleDescriptor]
  by_cases h1 : clampText stylePreset STYLE_LIMIT = "" <;>
    by_cases h2 : clampText styleDetail DETAIL_LIMIT = "" <;>
      simp [h1, h2, List.filter_cons]

/-- C2: the dispatcher's fallback policy.  With no credential the
rule-based article is returned with mode `fallback` unconditionally,
whatever the (never attempted) external outcome would have been; with a
credential, an external failure (exception) or an empty / all-whitespace
response falls back to the rule-based article with mode `fallback`, and a
non-empty trimmed response is returned as-is with the external mode — so
an external failure is never surfaced to the caller as an error. -/
theorem dispatcher_fallback_policy (outcome : ExternalOutcome) (req : GenRequest)
    (raw : String) :
    generateArticle false outcome req =
      (ruleBasedArticle req.segments
        (buildStyleDescriptor req.stylePreset req.styleDetail req.language)
        (lengthSpecFromChoice req.length) req.truncated, FALLBACK_MODE) ∧
    generateArticle true .failure req =
      (ruleBasedArticle req.segments
        (buildStyleDescriptor req.stylePreset req.styleDetail req.language)
        (lengthSpecFromChoice req.length) req.truncated, FALLBACK_MODE) ∧
    generateArticle true (.success raw) req =
      (if raw.trim = ""
       then (ruleBasedArticle req.segments
              (buildStyleDescriptor req.stylePreset req.styleDetail req.language)
              (lengthSpecFromChoice req.length) req.truncated, FALLBACK_MODE)
       else (raw.trim, EXTERNAL_MODE)) := by
  refine ⟨rfl, rfl, ?_⟩
  by_cases h : raw.trim = "" <;> simp [generateArticle, externalText, h]

/-- C9: the `mode` of every Generation Result is one of the two wire
values `"openai"` (the spec's `external` mode) and `"fallback"`, and it
is the external mode exactly when the external-model path produced the
article text (credential present and a successful call whose trimmed
response is non-empty), in which case the returned text is that trimmed
response. -/
theorem generation_mode_enum (hasApiKey : Bool) (outcome : ExternalOutcome)
    (req : GenRequest) :
    ((generateArticle hasApiKey outcome req).2 = EXTERNAL_MODE ∨
     (generateArticle hasApiKey outcome req).2 = FALLBACK_MODE) ∧
    ((generateArticle hasApiKey outcome req).2 = EXTERNAL_MODE ↔
      hasApiKey = true ∧ ∃ raw, outcome = .success raw ∧ raw.trim ≠ "" ∧
        (generateArticle hasApiKey outcome req).1 = raw.trim) := by
  cases hasApiKey with
  | false =>
    refine ⟨Or.inr rfl, ?_⟩
    simp [generateArticle, EXTERNAL_MODE, FALLBACK_MODE]
  | true =>
    cases outcome with
    | failure =>
      refine ⟨Or.inr rfl, ?_⟩
      simp [generateArticle, externalText, EXTERNAL_MODE, FALLBACK_MODE]
    | success raw =>
      by_cases h : raw.trim = ""
      · refine ⟨Or.inr (by simp [generateArticle, externalText, h]), ?_⟩
        simp [generateArticle, externalText, h, EXTERNAL_MODE, FALLBACK_MODE]
      · refine ⟨Or.inl (by simp [generateArticle, externalText, h]), ?_⟩
        simp [generateArticle, externalText, h, EXTERNAL_MODE, FALLBACK_MODE]

set_option maxRecDepth 8000 in
/-- C3: the Rule-Based Synthesizer's output is the fixed six-section
template: the title heading `"# "` followed, in this order, by the
`"## Overview"` heading, the `"Target length: "` statement, the
`"## Key Points"` heading, the `"## Closing"` heading and the
`"## Source Notes"` heading, for every segment list; and with zero
segments the sampled key-point list is empty and the article is the
concrete document whose Key Points section is empty and whose Closing
section is the fixed default sentence (shown for the default style and
length arguments). -/
theorem rule_based_article_structure (segments : List Segment)
    (styleDescriptor lengthSpec : String) (truncated : Bool) :
    (∃ t a b c d e,
      ruleBasedArticle segments styleDescriptor lengthSpec truncated =
        "# " ++ t ++ "## Overview" ++ a ++ "Target length: " ++ b ++
        "## Key Points" ++ c ++ "## Closing" ++ d ++ "## Source Notes" ++ e) ∧
    samplePoints ([] : List Segment) 5 = [] ∧
    ruleBasedArticle [] "" "600-900 words" false =
      "# Podcast Summary\n\n## Overview\nStyle focus: neutral summary. \n\n" ++
      "Target length: 600-900 words.\n\n## Key Points\n\n\n## Closing\n" ++
      "The discussion concludes with a wrap-up of key takeaways.\n\n## Source Notes\n" ++
      "Note: transcript fully included for this summary. " ++
      "This article is generated from the transcript and may omit details." := by
  refine ⟨?_, rfl, by decide⟩
  refine
    ⟨buildTitle segments ++ "\n" ++ "" ++ "\n",
     "\n" ++
       ((if styleDescriptor ≠ "" then "Style focus: " ++ styleDescriptor ++ "."
         else "Style focus: neutral summary.") ++ " " ++ segmentsToText (segments.take 6)) ++
       "\n" ++ "" ++ "\n",
     lengthSpec ++ "." ++ "\n" ++ "" ++ "\n",
     "\n" ++ joinSep "\n" ((samplePoints segments 5).map (fun point => "- " ++ point)) ++
       "\n" ++ "" ++ "\n",
     "\n" ++
       (if segmentsToText (segments.drop (segments.length - 6)) ≠ ""
        then segmentsToText (segments.drop (segments.length - 6)) else defaultClosing) ++
       "\n" ++ "" ++ "\n",
     "\n" ++
       ((if truncated then "Note: transcript truncated to fit context."
         else "Note: transcript fully included for this summary.") ++
        " This article is generated from the transcript and may omit details."),
     ?_⟩
  simp only [ruleBasedArticle, joinSep, String.append_assoc]

theorem samplePointsAux_spec (segments : List Segment) (count step : Nat)
    (hstep : 1 ≤ step) :
    ∀ fuel i points, segments.length ≤ i + fuel → points.length ≤ count →
      samplePointsAux segments count step fuel i points =
        points ++
          ((((strideIndicesAux segments.length step fuel i).map
              (fun j => segmentsToText ((segments.drop j).take 3))).filter
            (fun chunk => chunk ≠ "")).take (count - points.length))
  | 0, i, points, hfuel, _ => by
    simp [samplePointsAux, strideIndicesAux]
  | fuel + 1, i, points, hfuel, hpts => by
    by_cases hi : i < segments.length
    · by_cases hp : points.length < count
      · rw [samplePointsAux, if_pos ⟨hi, hp⟩]
        rw [strideIndicesAux, if_pos hi]
        have hfuel' : segments.length ≤ (i + step) + fuel := by omega
        by_cases hc : segmentsToText ((segments.drop i).take 3) = ""
        · rw [if_neg (by simpa using hc)]
          rw [samplePointsAux_spec segments count step hstep fuel (i + step) points hfuel' hpts]
          simp [hc]
        · rw [if_pos (by simpa using hc)]
          rw [samplePointsAux_spec segments count step hstep fuel (i + step)
            (points ++ [segmentsToText ((segments.drop i).take 3)]) hfuel'
            (by simpa using hp)]
          have hcnt : count - points.length =
              (count - (points ++ [segmentsToText ((segments.drop i).take 3)]).length) + 1 := by
            simp only [List.length_append, List.length_cons, List.length_nil]
            omega
          simp only [List.map_cons, List.filter_cons]
          rw [if_pos (by simpa using hc)]
          rw [hcnt, List.take_succ_cons, List.append_assoc]
          simp
      · rw [samplePointsAux, if_neg (by simp [hp])]
        have : count - points.length = 0 := by omega
        simp [this]
    · rw [samplePointsAux, if_neg (by simp [hi])]
      rw [strideIndicesAux, if_neg hi]
      simp

theorem samplePoints_eq_spec (segments : List Segment) (count : Nat) :
    samplePoints segments count =
      ((((strideIndices segments.length (max 1 (segments.length / count))).map
          (fun j => segmentsToText ((segments.drop j).take 3))).filter
        (fun chunk => chunk ≠ "")).take count) := by
  rw [samplePoints]
  by_cases h : segments.length = 0
  · rw [if_pos h, strideIndices, h]
    simp [strideIndicesAux]
  · rw [if_neg h, strideIndices]
    rw [samplePointsAux_spec segments count (max 1 (segments.length / count))
      (Nat.le_max_left 1 _) segments.length 0 [] (by omega) (by simp)]
    simp

set_option maxRecDepth 4000 in
/-- C4: the key-point sampler equals its declarative description — step
through the list from index 0 in strides of `max 1 (n / 5)`, form the
cleaned text of the 3-segment window at each visited index, keep the
non-empty chunks, and take the first 5 — so it collects at most 5 points,
every collected point is non-empty, 20 non-empty segments yield exactly 5
points, and 2 such segments yield fewer than 5 points (without error, the
sampler being a total function). -/
theorem key_point_sampling (segments : List Segment) :
    samplePoints segments 5 =
      ((((strideIndices segments.length (max 1 (segments.length / 5))).map
          (fun j => segmentsToText ((segments.drop j).take 3))).filter
        (fun chunk => chunk ≠ "")).take 5) ∧
    (samplePoints segments 5).length ≤ 5 ∧
    (samplePoints segments 5).all (fun point => !(point = "")) = true ∧
    (samplePoints (List.replicate 20 ⟨.vstr "word"⟩) 5).length = 5 ∧
    (samplePoints (List.replicate 2 ⟨.vstr "word"⟩) 5).length < 5 := by
  refine ⟨samplePoints_eq_spec segments 5, ?_, ?_, by decide, by decide⟩
  · rw [samplePoints_eq_spec segments 5, List.length_take]
    exact Nat.min_le_left _ _
  · rw [samplePoints_eq_spec segments 5]
    rw [List.all_eq_true]
    intro point hpoint
    have hmem := List.mem_of_mem_take hpoint
    have := List.of_mem_filter hmem
    simpa using this

theorem find?_append_none {p : Segment → Bool} :
    ∀ (pre : List Segment) (s : Segment) (post : List Segment),
      (∀ t ∈ pre, p t = false) → p s = true →
      (pre ++ s :: post).find? p = some s
  | [], s, post, _, hs => by simp [List.find?_cons, hs]
  | t :: pre, s, post, h, hs => by
    rw [List.cons_append,
      List.find?_cons_of_neg _ (by simp [h t (List.mem_cons_self t pre)])]
    exact find?_append_none pre s post (fun u hu => h u (List.mem_cons_of_mem t hu)) hs

/-- C8: the synthesizer's title comes from the first segment, in original
order, whose text is a string of length more than 5: that text is
whitespace-cleaned, returned as-is when at most 70 characters, and capped
at 70 characters (re-trimmed) with an ellipsis appended when longer; when
no segment qualifies — or when the cleaned seed is empty — the fixed
default title `"Podcast Summary"` is used. -/
theorem title_from_first_long_segment (pre post segments : List Segment)
    (segment : Segment) (str : String)
    (hpre : ∀ t ∈ pre, titleQualifies t = false)
    (htext : segment.text = .vstr str) (hlen : str.length > 5)
    (hnone : ∀ t ∈ segments, titleQualifies t = false) :
    buildTitle (pre ++ segment :: post) =
      (if jsClean str = "" then "Podcast Summary"
       else if (jsClean str).length > 70 then (strTake (jsClean str) 70).trim ++ "..."
       else jsClean str) ∧
    buildTitle segments = "Podcast Summary" := by
  constructor
  · have hq : titleQualifies segment = true := by
      simp [titleQualifies, htext, hlen]
    rw [buildTitle, find?_append_none pre segment post hpre hq]
    simp only [htext]
  · rw [buildTitle, List.find?_eq_none.mpr (fun t ht => by simp [hnone t ht])]
    decide

/-- Witness for `title_from_first_long_segment` at concrete inputs: the
third segment is the first whose text is a string longer than 5
characters, and a list whose only segment has a 5-character text falls
back to the default title. -/
theorem title_from_first_long_segment_witness :
    buildTitle ([⟨.vnull⟩, ⟨.vstr "hi"⟩] ++ ⟨.vstr "  hello   world  "⟩ :: [⟨.vstr "later"⟩])
      = "hello world" ∧
    buildTitle [⟨.vstr "short"⟩] = "Podcast Summary" := by
  have h := title_from_first_long_segment
    [⟨.vnull⟩, ⟨.vstr "hi"⟩] [⟨.vstr "later"⟩] [⟨.vstr "short"⟩]
    ⟨.vstr "  hello   world  "⟩ "  hello   world  "
    (by decide) rfl (by decide) (by decide)
  refine ⟨?_, h.2⟩
  rw [h.1]
  decide

theorem joinStr_orEmptyText (t : JsValue) : t.orEmptyText.joinStr = t.joinStr := by
  cases t <;> rfl

theorem map_joinStr_orEmptyText (segments : List Segment) :
    (segments.map Segment.orEmptyText).map (fun segment => segment.text.joinStr)
      = segments.map (fun segment => segment.text.joinStr) := by
  induction segments with
  | nil => rfl
  | cons s rest ih =>
    simp only [List.map_cons, ih, Segment.orEmptyText, joinStr_orEmptyText]

theorem segmentsToText_orEmptyText (segments : List Segment) :
    segmentsToText (segments.map Segment.orEmptyText) = segmentsToText segments := by
  rw [segmentsToText, segmentsToText, map_joinStr_orEmptyText]

theorem titleQualifies_orEmptyText (s : Segment) :
    titleQualifies s.orEmptyText = titleQualifies s := by
  rcases s with ⟨t⟩
  cases t <;> simp [titleQualifies, Segment.orEmptyText, JsValue.orEmptyText]

theorem find?_orEmptyText (segments : List Segment) :
    (segments.map Segment.orEmptyText).find? titleQualifies
      = (segments.find? titleQualifies).map Segment.orEmptyText := by
  induction segments with
  | nil => rfl
  | cons s rest ih =>
    by_cases h : titleQualifies s = true
    · rw [List.map_cons, List.find?_cons_of_pos _ (by rw [titleQualifies_orEmptyText]; exact h),
        List.find?_cons_of_pos _ h, Option.map_some']
    · rw [List.map_cons,
        List.find?_cons_of_neg _ (by rw [titleQualifies_orEmptyText]; exact h),
        List.find?_cons_of_neg _ h, ih]

theorem buildTitle_orEmptyText (segments : List Segment) :
    buildTitle (segments.map Segment.orEmptyText) = buildTitle segments := by
  rw [buildTitle, buildTitle, find?_orEmptyText]
  cases hfind : segments.find? titleQualifies with
  | none => rfl
  | some s =>
    have hq := List.find?_some hfind
    rcases s with ⟨t⟩
    cases t <;> simp_all [titleQualifies, Segment.orEmptyText, JsValue.orEmptyText]

theorem samplePointsAux_orEmptyText (segments : List Segment) (count step : Nat) :
    ∀ fuel i points,
      samplePointsAux (segments.map Segment.orEmptyText) count step fuel i points
        = samplePointsAux segments count step fuel i points
  | 0, i, points => rfl
  | fuel + 1, i, points => by
    rw [samplePointsAux, samplePointsAux, List.length_map]
    by_cases hguard : i < segments.length ∧ points.length < count
    · rw [if_pos hguard, if_pos hguard]
      rw [← List.map_drop, ← List.map_take, segmentsToText_orEmptyText]
      rw [samplePointsAux_orEmptyText segments count step fuel (i + step)]
    · rw [if_neg hguard, if_neg hguard]

theorem samplePoints_orEmptyText (segments : List Segment) (count : Nat) :
    samplePoints (segments.map Segment.orEmptyText) count = samplePoints segments count := by
  rw [samplePoints, samplePoints, List.length_map]
  by_cases h : segments.length = 0
  · rw [if_pos h, if_pos h]
  · rw [if_neg h, if_neg h, samplePointsAux_orEmptyText]

theorem clampText_coerce (v : JsValue) (n : Nat) :
    clampText v n = clampText (.vstr (if v.isFalsy then "" else v.toStr)) n := by
  by_cases hf : v.isFalsy = true
  · rw [if_pos hf, clampText, if_pos hf, clampText]
    simp [JsValue.isFalsy]
  · rw [if_neg hf, clampText, if_neg (by simpa using hf)]
    by_cases hs : v.toStr = ""
    · rw [clampText, if_pos (by simp [JsValue.isFalsy, hs]), hs]
      rw [strTake, jsClean]
      rw [show collapseWs ("" : String).data = [] from rfl]
      rw [show trimChars [] = [] from rfl, List.take_nil]
    · rw [clampText, if_neg (by simpa [JsValue.isFalsy] using hs)]
      rfl

/-- C10: the core text helpers are total over degenerate inputs.  Every
function below is a total Lean function, so none of them can throw; and
segments whose text is `null` / `undefined` are treated as having empty
text (the `Array.prototype.join` coercion) by `normalizeTranscript`,
`segmentsToText`, `buildTitle` and `samplePoints`, while `clampText` (and
hence `buildStyleDescriptor`) sees an arbitrary non-string value exactly
as the `String()` coercion of that value, falsy values giving `""`. -/
theorem degenerate_inputs_total (segments : List Segment) (v p d l : JsValue) (n : Nat) :
    normalizeTranscript (segments.map Segment.orEmptyText) = normalizeTranscript segments ∧
    segmentsToText (segments.map Segment.orEmptyText) = segmentsToText segments ∧
    buildTitle (segments.map Segment.orEmptyText) = buildTitle segments ∧
    samplePoints (segments.map Segment.orEmptyText) 5 = samplePoints segments 5 ∧
    clampText v n = clampText (.vstr (if v.isFalsy then "" else v.toStr)) n ∧
    buildStyleDescriptor p d l =
      buildStyleDescriptor (.vstr (if p.isFalsy then "" else p.toStr))
        (.vstr (if d.isFalsy then "" else d.toStr))
        (.vstr (if l.isFalsy then "" else l.toStr)) := by
  refine ⟨?_, segmentsToText_orEmptyText segments, buildTitle_orEmptyText segments,
    samplePoints_orEmptyText segments 5, clampText_coerce v n, ?_⟩
  · rw [normalizeTranscript, normalizeTranscript, map_joinStr_orEmptyText]
  · rw [buildStyleDescriptor, buildStyleDescriptor,
      clampText_coerce p STYLE_LIMIT, clampText_coerce d DETAIL_LIMIT, clampText_coerce l 40]

theorem filter_all {p : Char → Bool} :
    ∀ l : List Char, (∀ c ∈ l, p c = true) → l.filter p = l
  | [], _ => rfl
  | c :: rest, h => by
    rw [List.filter_cons]
    rw [if_pos (h c (List.mem_cons_self c rest))]
    rw [filter_all rest (fun d hd => h d (List.mem_cons_of_mem c hd))]

theorem all_append {α : Type} {P : α → Prop} {l1 l2 : List α}
    (h1 : ∀ c ∈ l1, P c) (h2 : ∀ c ∈ l2, P c) : ∀ c ∈ l1 ++ l2, P c :=
  fun c hc => (List.mem_append.mp hc).elim (h1 c) (h2 c)

theorem trimChars_eq_self (l : List Char) (h : ∀ c ∈ l, isJsWs c = false) :
    trimChars l = l := by
  rw [trimChars, dropWhile_none l h,
    dropWhile_none l.reverse (fun c hc => h c (List.mem_reverse.mp hc)),
    List.reverse_reverse]

theorem idChar_ne {c : Char} (d : Char) (h : idChar c = true) (hd : idChar d = false) :
    c ≠ d := by
  intro he
  subst he
  simp [h] at hd

theorem idChar_not_ws {c : Char} (h : idChar c = true) : isJsWs c = false := by
  cases hws : isJsWs c
  · rfl
  · exfalso
    have hmem : ((((c = ' ' ∨ c = '\t') ∨ c = '\n') ∨ c = '\r') ∨ c = '\x0b') ∨ c = '\x0c' := by
      simpa [isJsWs] using hws
    rcases hmem with ((((h' | h') | h') | h') | h') | h' <;> subst h' <;> revert h <;> decide

theorem notPathEnd_of_idChar {c : Char} (h : idChar c = true) : notPathEnd c = true := by
  have h1 : c ≠ '?' := idChar_ne '?' h (by decide)
  have h2 : c ≠ '#' := idChar_ne '#' h (by decide)
  simp [notPathEnd, h1, h2]

theorem runChar_of_idChar {c : Char} (h : idChar c = true) :
    (!(c = '/' || c = '?')) = true := by
  have h1 : c ≠ '/' := idChar_ne '/' h (by decide)
  have h2 : c ≠ '?' := idChar_ne '?' h (by decide)
  simp [h1, h2]

theorem notSlash_of_idChar {c : Char} (h : idChar c = true) : (!(c = '/')) = true := by
  simp [idChar_ne '/' h (by decide)]

theorem notHash_of_idChar {c : Char} (h : idChar c = true) : (!(c = '#')) = true := by
  simp [idChar_ne '#' h (by decide)]

theorem splitOnChar_no_sep (sep : Char) :
    ∀ l : List Char, (∀ c ∈ l, c ≠ sep) → splitOnChar sep l = [l]
  | [], _ => rfl
  | c :: rest, h => by
    rw [splitOnChar, if_neg (by simpa using h c (List.mem_cons_self c rest)),
      splitOnChar_no_sep sep rest (fun d hd => h d (List.mem_cons_of_mem c hd))]

theorem splitOnChar_append (sep : Char) :
    ∀ (l1 l2 : List Char), (∀ c ∈ l1, c ≠ sep) →
      splitOnChar sep (l1 ++ sep :: l2) = l1 :: splitOnChar sep l2
  | [], l2, _ => by rw [List.nil_append, splitOnChar, if_pos rfl]
  | c :: rest, l2, h => by
    rw [List.cons_append, splitOnChar,
      if_neg (by simpa using h c (List.mem_cons_self c rest)),
      splitOnChar_append sep rest l2 (fun d hd => h d (List.mem_cons_of_mem c hd))]

theorem parseUrl_eq (l rest : List Char) (h : splitScheme l = some rest) :
    parseUrl l = some ⟨hostnameOf rest, pathOf (rest.dropWhile notHostEnd),
      queryOf ((rest.dropWhile notHostEnd).dropWhile notPathEnd)⟩ := by
  rw [parseUrl, h]

theorem structured_youtu_be (id : List Char) (hid : ∀ c ∈ id, idChar c = true) :
    structuredResult ("https://youtu.be/".data ++ id) = some id := by
  have hsplit : splitScheme ("https://youtu.be/".data ++ id)
      = some ("youtu.be/".data ++ id) := rfl
  simp only [structuredResult, parseUrl_eq _ _ hsplit]
  rw [show hostnameOf ("youtu.be/".data ++ id) = "youtu.be".data from rfl]
  rw [show ("youtu.be/".data ++ id).dropWhile notHostEnd = '/' :: id from rfl]
  have hpath : pathOf ('/' :: id) = '/' :: id := by
    rw [pathOf]
    exact takeWhile_all _ (fun c hc => by
      rcases List.mem_cons.mp hc with h' | h'
      · subst h'; decide
      · exact notPathEnd_of_idChar (hid c h'))
  rw [hpath]
  rw [show replaceFirstWWW "youtu.be".data = "youtu.be".data from rfl]
  rw [if_pos rfl]
  rw [List.filter_cons, if_neg (by decide)]
  rw [filter_all id (fun c hc => notSlash_of_idChar (hid c hc))]

theorem parsePair_v (id : List Char) :
    parsePair (['v', '='] ++ id) = some (['v'], id) := by
  rw [parsePair, if_neg (fun he => absurd (List.append_eq_nil.mp he).1 (by decide))]
  rfl

theorem getParam_head_eq (name v : List Char) (rest : List (List Char × List Char)) :
    getParam name ((name, v) :: rest) = some v := by
  rw [getParam, if_pos rfl]

theorem searchParams_v (id : List Char) (hid : ∀ c ∈ id, idChar c = true) :
    searchParamsOf ("v=".data ++ id) = [("v".data, id)] := by
  rw [searchParamsOf,
    splitOnChar_no_sep '&' _
      (all_append (by decide) (fun c hc => idChar_ne '&' (hid c hc) (by decide))),
    show ("v=".data ++ id) = ['v', '='] ++ id from rfl,
    List.filterMap_cons, parsePair_v]
  rfl

theorem structured_watch (id : List Char) (hne : id ≠ [])
    (hid : ∀ c ∈ id, idChar c = true) :
    structuredResult ("https://www.youtube.com/watch?v=".data ++ id) = some id := by
  have hsplit : splitScheme ("https://www.youtube.com/watch?v=".data ++ id)
      = some ("www.youtube.com/watch?v=".data ++ id) := rfl
  simp only [structuredResult, parseUrl_eq _ _ hsplit]
  rw [show hostnameOf ("www.youtube.com/watch?v=".data ++ id)
      = "www.youtube.com".data from rfl]
  rw [show ("www.youtube.com/watch?v=".data ++ id).dropWhile notHostEnd
      = "/watch?v=".data ++ id from rfl]
  rw [show pathOf ("/watch?v=".data ++ id) = "/watch".data from rfl]
  rw [show ("/watch?v=".data ++ id).dropWhile notPathEnd
      = '?' :: ("v=".data ++ id) from rfl]
  rw [show replaceFirstWWW "www.youtube.com".data = "youtube.com".data from rfl]
  rw [if_neg (by decide), if_pos (by decide)]
  rw [queryOf,
    takeWhile_all _ (all_append (by decide) (fun c hc => notHash_of_idChar (hid c hc)))]
  simp only [searchParams_v id hid, getParam_head_eq]
  rw [if_pos hne]

theorem structured_watch_extra (id : List Char) (hne : id ≠ [])
    (hid : ∀ c ∈ id, idChar c = true) :
    structuredResult (("https://www.youtube.com/watch?v=".data ++ id) ++ "&t=5".data)
      = some id := by
  have hsplit : splitScheme (("https://www.youtube.com/watch?v=".data ++ id) ++ "&t=5".data)
      = some (("www.youtube.com/watch?v=".data ++ id) ++ "&t=5".data) := rfl
  simp only [structuredResult, parseUrl_eq _ _ hsplit]
  rw [show hostnameOf (("www.youtube.com/watch?v=".data ++ id) ++ "&t=5".data)
      = "www.youtube.com".data from rfl]
  rw [show (("www.youtube.com/watch?v=".data ++ id) ++ "&t=5".data).dropWhile notHostEnd
      = ("/watch?v=".data ++ id) ++ "&t=5".data from rfl]
  rw [show pathOf (("/watch?v=".data ++ id) ++ "&t=5".data) = "/watch".data from rfl]
  rw [show (("/watch?v=".data ++ id) ++ "&t=5".data).dropWhile notPathEnd
      = '?' :: (("v=".data ++ id) ++ "&t=5".data) from rfl]
  rw [show replaceFirstWWW "www.youtube.com".data = "youtube.com".data from rfl]
  rw [if_neg (by decide), if_pos (by decide)]
  rw [queryOf,
    takeWhile_all _
      (all_append
        (all_append (by decide) (fun c hc => notHash_of_idChar (hid c hc)))
        (by decide))]
  rw [searchParamsOf,
    show (("v=".data ++ id) ++ "&t=5".data)
      = ("v=".data ++ id) ++ '&' :: "t=5".data from rfl,
    splitOnChar_append '&' ("v=".data ++ id) "t=5".data
      (all_append (by decide) (fun c hc => idChar_ne '&' (hid c hc) (by decide)))]
  simp only [List.filterMap_cons, parsePair_v, getParam_head_eq]
  rw [if_pos hne]

theorem pathScan_at_start {c : Char} {rest after : List Char}
    (hatt : pathAttempt (c :: rest) = some after)
    (hrun : after.takeWhile (fun d => !(d = '/' || d = '?')) ≠ []) :
    pathScan (c :: rest)
      = some (after.takeWhile (fun d => !(d = '/' || d = '?'))) := by
  rw [pathScan, hatt]
  show (if after.takeWhile (fun d => !(d = '/' || d = '?')) ≠ []
        then some (after.takeWhile (fun d => !(d = '/' || d = '?')))
        else pathScan rest)
      = some (after.takeWhile (fun d => !(d = '/' || d = '?')))
  rw [if_pos hrun]

theorem isPrefixOf_append_self (p t : List Char) : List.isPrefixOf p (p ++ t) = true :=
  List.isPrefixOf_iff_prefix.mpr (List.prefix_append p t)

theorem pathAttempt_shorts (id : List Char) :
    pathAttempt ("/shorts/".data ++ id) = some id := by
  rw [pathAttempt, if_pos (isPrefixOf_append_self "/shorts/".data id)]
  rfl

theorem pathAttempt_live (id : List Char) :
    pathAttempt ("/live/".data ++ id) = some id := by
  rw [pathAttempt,
    if_neg (by
      rw [show List.isPrefixOf "/shorts/".data ("/live/".data ++ id) = false from rfl]
      exact Bool.false_ne_true),
    if_pos (isPrefixOf_append_self "/live/".data id)]
  rfl

theorem pathAttempt_embed (id : List Char) :
    pathAttempt ("/embed/".data ++ id) = some id := by
  rw [pathAttempt,
    if_neg (by
      rw [show List.isPrefixOf "/shorts/".data ("/embed/".data ++ id) = false from rfl]
      exact Bool.false_ne_true),
    if_neg (by
      rw [show List.isPrefixOf "/live/".data ("/embed/".data ++ id) = false from rfl]
      exact Bool.false_ne_true),
    if_pos (isPrefixOf_append_self "/embed/".data id)]
  rfl

theorem structured_shorts (id : List Char) (hne : id ≠ [])
    (hid : ∀ c ∈ id, idChar c = true) :
    structuredResult ("https://www.youtube.com/shorts/".data ++ id) = some id := by
  have hsplit : splitScheme ("https://www.youtube.com/shorts/".data ++ id)
      = some ("www.youtube.com/shorts/".data ++ id) := rfl
  have hall : ∀ c ∈ '/' :: ("shorts/".data ++ id), notPathEnd c = true := by
    intro c hc
    rcases List.mem_cons.mp hc with h' | h'
    · subst h'; decide
    · exact (all_append (by decide) (fun d hd => notPathEnd_of_idChar (hid d hd))) c h'
  have hrun : id.takeWhile (fun d => !(d = '/' || d = '?')) ≠ [] := by
    rw [takeWhile_all id (fun c hc => runChar_of_idChar (hid c hc))]
    exact hne
  simp only [structuredResult, parseUrl_eq _ _ hsplit]
  rw [show hostnameOf ("www.youtube.com/shorts/".data ++ id)
      = "www.youtube.com".data from rfl]
  rw [show ("www.youtube.com/shorts/".data ++ id).dropWhile notHostEnd
      = '/' :: ("shorts/".data ++ id) from rfl]
  rw [pathOf, takeWhile_all _ hall, dropWhile_all _ hall]
  rw [show replaceFirstWWW "www.youtube.com".data = "youtube.com".data from rfl]
  rw [if_neg (by decide), if_pos (by decide)]
  rw [show getParam "v".data (searchParamsOf (queryOf [])) = none from rfl]
  have hatt : pathAttempt ('/' :: ("shorts/".data ++ id)) = some id := pathAttempt_shorts id
  show pathScan ('/' :: ("shorts/".data ++ id)) = some id
  rw [pathScan_at_start hatt hrun,
    takeWhile_all id (fun c hc => runChar_of_idChar (hid c hc))]

theorem structured_live (id : List Char) (hne : id ≠ [])
    (hid : ∀ c ∈ id, idChar c = true) :
    structuredResult ("https://www.youtube.com/live/".data ++ id) = some id := by
  have hsplit : splitScheme ("https://www.youtube.com/live/".data ++ id)
      = some ("www.youtube.com/live/".data ++ id) := rfl
  have hall : ∀ c ∈ '/' :: ("live/".data ++ id), notPathEnd c = true := by
    intro c hc
    rcases List.mem_cons.mp hc with h' | h'
    · subst h'; decide
    · exact (all_append (by decide) (fun d hd => notPathEnd_of_idChar (hid d hd))) c h'
  have hrun : id.takeWhile (fun d => !(d = '/' || d = '?')) ≠ [] := by
    rw [takeWhile_all id (fun c hc => runChar_of_idChar (hid c hc))]
    exact hne
  simp only [structuredResult, parseUrl_eq _ _ hsplit]
  rw [show hostnameOf ("www.youtube.com/live/".data ++ id)
      = "www.youtube.com".data from rfl]
  rw [show ("www.youtube.com/live/".data ++ id).dropWhile notHostEnd
      = '/' :: ("live/".data ++ id) from rfl]
  rw [pathOf, takeWhile_all _ hall, dropWhile_all _ hall]
  rw [show replaceFirstWWW "www.youtube.com".data = "youtube.com".data from rfl]
  rw [if_neg (by decide), if_pos (by decide)]
  rw [show getParam "v".data (searchParamsOf (queryOf [])) = none from rfl]
  have hatt : pathAttempt ('/' :: ("live/".data ++ id)) = some id := pathAttempt_live id
  show pathScan ('/' :: ("live/".data ++ id)) = some id
  rw [pathScan_at_start hatt hrun,
    takeWhile_all id (fun c hc => runChar_of_idChar (hid c hc))]

theorem structured_embed (id : List Char) (hne : id ≠ [])
    (hid : ∀ c ∈ id, idChar c = true) :
    structuredResult ("https://www.youtube.com/embed/".data ++ id) = some id := by
  have hsplit : splitScheme ("https://www.youtube.com/embed/".data ++ id)
      = some ("www.youtube.com/embed/".data ++ id) := rfl
  have hall : ∀ c ∈ '/' :: ("embed/".data ++ id), notPathEnd c = true := by
    intro c hc
    rcases List.mem_cons.mp hc with h' | h'
    · subst h'; decide
    · exact (all_append (by decide) (fun d hd => notPathEnd_of_idChar (hid d hd))) c h'
  have hrun : id.takeWhile (fun d => !(d = '/' || d = '?')) ≠ [] := by
    rw [takeWhile_all id (fun c hc => runChar_of_idChar (hid c hc))]
    exact hne
  simp only [structuredResult, parseUrl_eq _ _ hsplit]
  rw [show hostnameOf ("www.youtube.com/embed/".data ++ id)
      = "www.youtube.com".data from rfl]
  rw [show ("www.youtube.com/embed/".data ++ id).dropWhile notHostEnd
      = '/' :: ("embed/".data ++ id) from rfl]
  rw [pathOf, takeWhile_all _ hall, dropWhile_all _ hall]
  rw [show replaceFirstWWW "www.youtube.com".data = "youtube.com".data from rfl]
  rw [if_neg (by decide), if_pos (by decide)]
  rw [show getParam "v".data (searchParamsOf (queryOf [])) = none from rfl]
  have hatt : pathAttempt ('/' :: ("embed/".data ++ id)) = some id := pathAttempt_embed id
  show pathScan ('/' :: ("embed/".data ++ id)) = some id
  rw [pathScan_at_start hatt hrun,
    takeWhile_all id (fun c hc => runChar_of_idChar (hid c hc))]

theorem extractVideoId_of_structured (S r : List Char)
    (htrim : trimChars S = S) (hs : structuredResult S = some r) :
    extractVideoId (String.mk S) = some (String.mk r) := by
  rw [extractVideoId]
  show (extractCore S).map String.mk = some (String.mk r)
  rw [extractCore, htrim, hs]
  rfl

/-- C5: for every non-empty identifier consisting of the id characters
`[a-zA-Z0-9_-]`, the extractor returns exactly the embedded id for each
recognized URL shape: `youtu.be/<id>`, `youtube.com/watch?v=<id>` (also
with a further query parameter appended), `youtube.com/shorts/<id>`,
`youtube.com/live/<id>` and `youtube.com/embed/<id>`; in particular
`https://youtu.be/abc123xy` and
`https://www.youtube.com/watch?v=abc123xy&t=5` both yield `abc123xy`
(see the witness). -/
theorem video_id_extraction (id : List Char) (hne : id ≠ [])
    (hid : ∀ c ∈ id, idChar c = true) :
    extractVideoId (String.mk ("https://youtu.be/".data ++ id)) = some (String.mk id) ∧
    extractVideoId (String.mk ("https://www.youtube.com/watch?v=".data ++ id))
      = some (String.mk id) ∧
    extractVideoId (String.mk (("https://www.youtube.com/watch?v=".data ++ id) ++ "&t=5".data))
      = some (String.mk id) ∧
    extractVideoId (String.mk ("https://www.youtube.com/shorts/".data ++ id))
      = some (String.mk id) ∧
    extractVideoId (String.mk ("https://www.youtube.com/live/".data ++ id))
      = some (String.mk id) ∧
    extractVideoId (String.mk ("https://www.youtube.com/embed/".data ++ id))
      = some (String.mk id) := by
  have hws : ∀ c ∈ id, isJsWs c = false := fun c hc => idChar_not_ws (hid c hc)
  refine ⟨?_, ?_, ?_, ?_, ?_, ?_⟩
  · exact extractVideoId_of_structured _ _
      (trimChars_eq_self _ (all_append (by decide) hws)) (structured_youtu_be id hid)
  · exact extractVideoId_of_structured _ _
      (trimChars_eq_self _ (all_append (by decide) hws)) (structured_watch id hne hid)
  · exact extractVideoId_of_structured _ _
      (trimChars_eq_self _ (all_append (all_append (by decide) hws) (by decide)))
      (structured_watch_extra id hne hid)
  · exact extractVideoId_of_structured _ _
      (trimChars_eq_self _ (all_append (by decide) hws)) (structured_shorts id hne hid)
  · exact extractVideoId_of_structured _ _
      (trimChars_eq_self _ (all_append (by decide) hws)) (structured_live id hne hid)
  · exact extractVideoId_of_structured _ _
      (trimChars_eq_self _ (all_append (by decide) hws)) (structured_embed id hne hid)

/-- Witness for `video_id_extraction` at `id = "abc123xy"`, covering the
spec's two scenario URLs. -/
theorem video_id_extraction_witness :
    extractVideoId "https://youtu.be/abc123xy" = some "abc123xy" ∧
    extractVideoId "https://www.youtube.com/watch?v=abc123xy&t=5" = some "abc123xy" := by
  have h := video_id_extraction "abc123xy".data (by decide) (by decide)
  constructor
  · rw [show ("https://youtu.be/abc123xy" : String)
      = String.mk ("https://youtu.be/".data ++ "abc123xy".data) from rfl]
    exact h.1
  · rw [show ("https://www.youtube.com/watch?v=abc123xy&t=5" : String)
      = String.mk (("https://www.youtube.com/watch?v=".data ++ "abc123xy".data)
          ++ "&t=5".data) from rfl]
    exact h.2.2.1

theorem fallbackScan_none_iff :
    ∀ l : List Char, (fallbackScan l = none ↔ ∀ i, fallbackMatchAt l i = none)
  | [] => by
    refine ⟨fun _ i => ?_, fun _ => rfl⟩
    rw [fallbackMatchAt, List.drop_nil]
    rfl
  | c :: rest => by
    have hshift : ∀ j, fallbackMatchAt (c :: rest) (j + 1) = fallbackMatchAt rest j :=
      fun j => by rw [fallbackMatchAt, fallbackMatchAt, List.drop_succ_cons]
    rw [fallbackScan]
    cases hatt : fallbackAttempt (c :: rest) with
    | none =>
      have hzero : fallbackMatchAt (c :: rest) 0 = none := by
        rw [fallbackMatchAt, List.drop_zero, hatt]
      rw [fallbackScan_none_iff rest]
      constructor
      · intro h i
        cases i with
        | zero => exact hzero
        | succ j => rw [hshift j]; exact h j
      · intro h j
        rw [← hshift j]
        exact h (j + 1)
    | some after =>
      show (if (after.takeWhile idChar).length ≥ 6
            then some (after.takeWhile idChar) else fallbackScan rest) = none ↔
          ∀ i, fallbackMatchAt (c :: rest) i = none
      by_cases hrun : (after.takeWhile idChar).length ≥ 6
      · rw [if_pos hrun]
        constructor
        · intro h
          exact absurd h (by simp)
        · intro h
          have h0 := h 0
          rw [fallbackMatchAt, List.drop_zero, hatt] at h0
          simp [hrun] at h0
      · rw [if_neg hrun, fallbackScan_none_iff rest]
        have hzero : fallbackMatchAt (c :: rest) 0 = none := by
          rw [fallbackMatchAt, List.drop_zero, hatt]
          simp [hrun]
        constructor
        · intro h i
          cases i with
          | zero => exact hzero
          | succ j => rw [hshift j]; exact h j
        · intro h j
          rw [← hshift j]
          exact h (j + 1)

/-- C6 (amended; see `null_extraction_counterexample`): the extractor is
a total function (the model of the `URL` constructor returns `none`
instead of throwing, matching the source's `catch`), and it returns
`null` exactly when the structured URL strategy yields no token — parse
failure, non-YouTube host, or a `youtube.com` URL with no usable `v`
parameter and no `shorts`/`live`/`embed` path — and the fallback pattern
finds, at no position, a recognized prefix followed by at least 6 id
characters.  The 6-character minimum applies only to the fallback
pattern: the structured strategy can return shorter tokens (even the
empty string).  In particular `"not a url"` yields `null`. -/
theorem null_extraction_characterization (input : String) :
    (extractVideoId input = none ↔
      structuredResult (trimChars input.data) = none ∧
      ∀ i, fallbackMatchAt (trimChars input.data) i = none) ∧
    extractVideoId "not a url" = none := by
  refine ⟨?_, by decide⟩
  rw [extractVideoId, Option.map_eq_none']
  cases hs : structuredResult (trimChars input.data) with
  | some r =>
    simp only [extractCore, hs]
    simp
  | none =>
    simp only [extractCore, hs]
    rw [fallbackScan_none_iff]
    simp

/-- C6 counterexample: for the input `"https://youtu.be/ab"` neither
strategy finds a 6-or-more-character id-like token — the structured parse
yields only the 2-character token `"ab"` and the fallback pattern finds
no match at all — yet the extractor returns `"ab"`, not `null`: the
claim's premise holds and its conclusion fails. -/
theorem null_extraction_counterexample :
    structuredResult (trimChars "https://youtu.be/ab".data) = some "ab".data ∧
    "ab".data.length < 6 ∧
    fallbackScan (trimChars "https://youtu.be/ab".data) = none ∧
    extractVideoId "https://youtu.be/ab" = some "ab" := by
  refine ⟨by decide, by decide, by decide, by decide⟩
